import Mathlib

/-!
# Verification of the litegraph.js pointer-interaction and link-routing core

A shallow embedding of the interaction state machine, selection model and
link-routing geometry of src/LGraphCanvas.ts, with theorems checking the
natural-language specification against the code.

Conventions used throughout:
* Mutable JS objects (nodes, groups, reroutes) are identified by a numeric id;
  object fields that the canvas mutates (the selected flag, the highlighted
  link map) are modelled as functions from ids to values, updated pointwise.
* JS Sets and Arrays of object references are modelled as Lists of the
  object records; reference equality between two live objects is modelled as
  id equality (the canvas never holds two distinct live objects with one id).
* Graph-space coordinates are rational numbers where the geometry needs
  fractional arithmetic (link routing), and integers elsewhere.
* Collaborator code that lives outside src/ (CanvasPointer.ts, measure.ts,
  the LGraph/LGraphNode model) is modelled from the spec; each such
  definition carries a doc comment starting with: Modelled from the spec.
-/

set_option autoImplicit false

namespace LiteGraph

/-! ## Selection model (LGraphCanvas.select / deselect / deselectAll,
    src/LGraphCanvas.ts lines 3895-4031) -/

/-- A Positionable canvas item (node, group or reroute).  An LGraphNode
additionally carries the link ids of its connected inputs and outputs
(nodeLinks = some (input link ids, flattened output link ids)); groups and
reroutes have nodeLinks = none.  The instanceof LGraphNode test in the source
is modelled by nodeLinks.isSome. -/
structure Positionable where
  id : Nat
  nodeLinks : Option (List Nat × List Nat)
deriving DecidableEq

/-- All link ids connected to an item (empty for non-nodes). -/
def Positionable.linkIds (p : Positionable) : List Nat :=
  match p.nodeLinks with
  | none => []
  | some (ins, outs) => ins ++ outs

/-- Whether the item is an LGraphNode. -/
def Positionable.isNode (p : Positionable) : Bool :=
  p.nodeLinks.isSome

/-- The selection-related state of an LGraphCanvas:
* selectedFlag models the mutable selected field of every Positionable
  (keyed by item id);
* selectedItems models the selectedItems Set of object references;
* selectedNodes models the keys of the legacy selected_nodes dictionary;
* highlightedLinks models the keys of the highlighted_links dictionary. -/
structure SelectionState where
  selectedFlag : Nat → Bool
  selectedItems : List Positionable
  selectedNodes : List Nat
  highlightedLinks : Nat → Bool

/-- Membership of an id in a list of items (Set.has under reference
equality, i.e. id equality). -/
def memId (l : List Positionable) (i : Nat) : Bool :=
  l.any (fun p => p.id == i)

/-- JS Set.add: appends unless an element with this identity is present. -/
def setAdd (l : List Positionable) (item : Positionable) : List Positionable :=
  if memId l item.id then l else l ++ [item]

/-- JS Set.delete of the object with this identity. -/
def setDelete (l : List Positionable) (item : Positionable) : List Positionable :=
  l.filter (fun p => p.id != item.id)

/-- Pointwise update of an id-keyed boolean field. -/
def setFlag (f : Nat → Bool) (i : Nat) (b : Bool) : Nat → Bool :=
  fun j => if j == i then b else f j

/-- Set every id in ids to b (the forEach loops writing highlighted_links). -/
def setMany (f : Nat → Bool) (ids : List Nat) (b : Bool) : Nat → Bool :=
  fun j => if ids.contains j then b else f j

/-- LGraphCanvas.select (lines 3895-3913): no-op when the item is selected
and in the set; otherwise flags and adds it, and for nodes also records it in
selected_nodes and highlights all of its connected links. -/
def select (st : SelectionState) (item : Positionable) : SelectionState :=
  if st.selectedFlag item.id && memId st.selectedItems item.id then st
  else
    let st1 : SelectionState :=
      { st with
        selectedFlag := setFlag st.selectedFlag item.id true
        selectedItems := setAdd st.selectedItems item }
    match item.nodeLinks with
    | none => st1
    | some (ins, outs) =>
      { st1 with
        selectedNodes :=
          if st1.selectedNodes.contains item.id then st1.selectedNodes
          else st1.selectedNodes ++ [item.id]
        highlightedLinks := setMany st1.highlightedLinks (ins ++ outs) true }

/-- LGraphCanvas.deselect (lines 3919-3937): no-op when the item is neither
flagged nor in the set; otherwise unflags and removes it, and for nodes also
removes it from selected_nodes and deletes all of its connected link ids from
highlighted_links (no reference counting). -/
def deselect (st : SelectionState) (item : Positionable) : SelectionState :=
  if !st.selectedFlag item.id && !memId st.selectedItems item.id then st
  else
    let st1 : SelectionState :=
      { st with
        selectedFlag := setFlag st.selectedFlag item.id false
        selectedItems := setDelete st.selectedItems item }
    match item.nodeLinks with
    | none => st1
    | some (ins, outs) =>
      { st1 with
        selectedNodes := st1.selectedNodes.filter (fun j => j != item.id)
        highlightedLinks := setMany st1.highlightedLinks (ins ++ outs) false }

/-- LGraphCanvas.deselectAll (lines 3998-4031): clears the selected flag of
every item in the set except an optional kept item, clears the set (re-adding
the kept item only if it was a member), resets selected_nodes (re-adding the
kept node only if it was recorded there) and resets highlighted_links
(re-adding only the kept node's connected links). -/
def deselectAll (st : SelectionState) (keep : Option Positionable) : SelectionState :=
  { selectedFlag := fun i =>
      if memId st.selectedItems i &&
          (match keep with | some k => i != k.id | none => true)
      then false else st.selectedFlag i
    selectedItems :=
      match keep with
      | some k => if memId st.selectedItems k.id then [k] else []
      | none => []
    selectedNodes :=
      match keep with
      | some k =>
        if k.isNode && st.selectedNodes.contains k.id then [k.id] else []
      | none => []
    highlightedLinks := fun i =>
      match keep with
      | some k => k.isNode && k.linkIds.contains i
      | none => false }

/-- The bidirectional-consistency invariant of the selection set: an item's
selected flag is set exactly when an item with its id is in selectedItems. -/
def SelInvariant (st : SelectionState) : Prop :=
  ∀ i : Nat, st.selectedFlag i = memId st.selectedItems i

/-- A canvas with nothing selected and nothing highlighted. -/
def stEmpty : SelectionState :=
  { selectedFlag := fun _ => false
    selectedItems := []
    selectedNodes := []
    highlightedLinks := fun _ => false }

/-- Example node with one output connected through link 5. -/
def nodeA : Positionable := ⟨1, some ([], [5])⟩

/-- Example node with one input connected through link 5 (shares the link
with nodeA). -/
def nodeB : Positionable := ⟨2, some ([5], [])⟩

theorem memId_append (l l' : List Positionable) (i : Nat) :
    memId (l ++ l') i = (memId l i || memId l' i) := by
  simp [memId, List.any_append]

theorem memId_setAdd (l : List Positionable) (item : Positionable) (i : Nat) :
    memId (setAdd l item) i = (i == item.id || memId l i) := by
  unfold setAdd
  by_cases h : memId l item.id = true
  · rw [if_pos h]
    by_cases hi : i = item.id
    · subst hi; simp [h]
    · simp [beq_iff_eq, hi]
  · rw [if_neg h, memId_append]
    by_cases hi : i = item.id
    · subst hi; simp [memId]
    · have h1 : (item.id == i) = false := beq_eq_false_iff_ne.mpr (Ne.symm hi)
      have h2 : (i == item.id) = false := beq_eq_false_iff_ne.mpr hi
      simp [memId, h1, h2]

theorem memId_setDelete (l : List Positionable) (item : Positionable) (i : Nat) :
    memId (setDelete l item) i = (!(i == item.id) && memId l i) := by
  unfold setDelete memId
  by_cases hi : i = item.id
  · subst hi
    simp only [beq_self_eq_true, Bool.not_true, Bool.false_and]
    simp only [List.any_eq_false, List.mem_filter, bne_iff_ne, ne_eq]
    rintro p ⟨_, hp⟩
    simp [beq_eq_false_iff_ne.mpr hp]
  · have h2 : (i == item.id) = false := beq_eq_false_iff_ne.mpr hi
    simp only [h2, Bool.not_false, Bool.true_and, List.any_filter]
    congr 1
    funext p
    by_cases hp : p.id = item.id
    · have h3 : (p.id == i) = false :=
        beq_eq_false_iff_ne.mpr (by rw [hp]; exact Ne.symm hi)
      simp [h3]
    · simp [bne_iff_ne, hp]

theorem select_flag (st : SelectionState) (item : Positionable) (i : Nat) :
    (select st item).selectedFlag i = (i == item.id || st.selectedFlag i) := by
  unfold select
  by_cases h : (st.selectedFlag item.id && memId st.selectedItems item.id) = true
  · rw [if_pos h]
    by_cases hi : i = item.id
    · subst hi
      simp only [Bool.and_eq_true] at h
      simp [h.1]
    · simp [beq_iff_eq, hi]
  · rw [if_neg h]
    rcases hnl : item.nodeLinks with _ | ⟨ins, outs⟩ <;>
      simp [hnl, setFlag] <;>
      by_cases hi : i = item.id <;>
      simp [beq_iff_eq, hi]

theorem select_mem (st : SelectionState) (item : Positionable) (i : Nat) :
    memId (select st item).selectedItems i = (i == item.id || memId st.selectedItems i) := by
  unfold select
  by_cases h : (st.selectedFlag item.id && memId st.selectedItems item.id) = true
  · rw [if_pos h]
    by_cases hi : i = item.id
    · subst hi
      simp only [Bool.and_eq_true] at h
      simp [h.2]
    · simp [beq_iff_eq, hi]
  · rw [if_neg h]
    rcases hnl : item.nodeLinks with _ | ⟨ins, outs⟩ <;>
      simp [hnl, memId_setAdd]

theorem deselect_flag (st : SelectionState) (item : Positionable) (i : Nat) :
    (deselect st item).selectedFlag i = (!(i == item.id) && st.selectedFlag i) := by
  unfold deselect
  by_cases h : (!st.selectedFlag item.id && !memId st.selectedItems item.id) = true
  · rw [if_pos h]
    by_cases hi : i = item.id
    · subst hi
      simp only [Bool.and_eq_true, Bool.not_eq_true'] at h
      simp [h.1]
    · simp [beq_iff_eq, hi]
  · rw [if_neg h]
    rcases hnl : item.nodeLinks with _ | ⟨ins, outs⟩ <;>
      simp [hnl, setFlag] <;>
      by_cases hi : i = item.id <;>
      simp [beq_iff_eq, hi]

theorem deselect_mem (st : SelectionState) (item : Positionable) (i : Nat) :
    memId (deselect st item).selectedItems i
      = (!(i == item.id) && memId st.selectedItems i) := by
  unfold deselect
  by_cases h : (!st.selectedFlag item.id && !memId st.selectedItems item.id) = true
  · rw [if_pos h]
    by_cases hi : i = item.id
    · subst hi
      simp only [Bool.and_eq_true, Bool.not_eq_true'] at h
      simp [h.2]
    · simp [beq_iff_eq, hi]
  · rw [if_neg h]
    rcases hnl : item.nodeLinks with _ | ⟨ins, outs⟩ <;>
      simp [hnl, memId_setDelete]

theorem deselect_highlight (st : SelectionState) (item : Positionable)
    (h : st.selectedFlag item.id = true) (i : Nat) :
    (deselect st item).highlightedLinks i
      = (st.highlightedLinks i && !(item.linkIds.contains i)) := by
  unfold deselect
  rw [if_neg (by simp [h])]
  rcases hnl : item.nodeLinks with _ | ⟨ins, outs⟩
  · simp [Positionable.linkIds, hnl]
  · simp only [Positionable.linkIds, hnl, setMany]
    by_cases hc : (ins ++ outs).contains i = true <;>
      simp [hc, Bool.and_comm]

/-- C8: select and deselect are idempotent (select on an item that is already
selected and in the set, and deselect on an item that is neither, are no-ops
returning an unchanged state), and for a previously-unselected item the
round trip deselect after select restores selected = false and removes the
item from the selection set. -/
theorem select_deselect_idempotent_roundtrip :
    (∀ (st : SelectionState) (item : Positionable),
      st.selectedFlag item.id = true → memId st.selectedItems item.id = true →
      select st item = st) ∧
    (∀ (st : SelectionState) (item : Positionable),
      st.selectedFlag item.id = false → memId st.selectedItems item.id = false →
      deselect st item = st) ∧
    (∀ (st : SelectionState) (item : Positionable),
      st.selectedFlag item.id = false →
      (deselect (select st item) item).selectedFlag item.id = false ∧
      memId (deselect (select st item) item).selectedItems item.id = false) := by
  refine ⟨?_, ?_, ?_⟩
  · intro st item h1 h2
    unfold select
    rw [if_pos (by simp [h1, h2])]
  · intro st item h1 h2
    unfold deselect
    rw [if_pos (by simp [h1, h2])]
  · intro st item _
    constructor
    · rw [deselect_flag]; simp
    · rw [deselect_mem]; simp

/-- Witness for C8 at a concrete state: the empty canvas with nodeA. -/
theorem select_deselect_idempotent_roundtrip_witness :
    select (select stEmpty nodeA) nodeA = select stEmpty nodeA ∧
    deselect stEmpty nodeA = stEmpty ∧
    (deselect (select stEmpty nodeA) nodeA).selectedFlag nodeA.id = false ∧
    memId (deselect (select stEmpty nodeA) nodeA).selectedItems nodeA.id = false :=
  ⟨select_deselect_idempotent_roundtrip.1 (select stEmpty nodeA) nodeA
      (by decide) (by decide),
   select_deselect_idempotent_roundtrip.2.1 stEmpty nodeA (by decide) (by decide),
   (select_deselect_idempotent_roundtrip.2.2 stEmpty nodeA (by decide)).1,
   (select_deselect_idempotent_roundtrip.2.2 stEmpty nodeA (by decide)).2⟩

/-- C7: deselecting a node deletes exactly that node's connected link ids
from highlighted_links, with no reference counting; concretely, after
selecting nodeA and nodeB (which share link 5) and then deselecting nodeA,
link 5 is no longer highlighted although nodeB is still selected. -/
theorem deselect_unhighlights_without_refcount :
    (∀ (st : SelectionState) (item : Positionable),
      st.selectedFlag item.id = true → ∀ i : Nat,
      (deselect st item).highlightedLinks i
        = (st.highlightedLinks i && !(item.linkIds.contains i))) ∧
    ((deselect (select (select stEmpty nodeA) nodeB) nodeA).highlightedLinks 5 = false ∧
     (deselect (select (select stEmpty nodeA) nodeB) nodeA).selectedFlag nodeB.id = true ∧
     memId (deselect (select (select stEmpty nodeA) nodeB) nodeA).selectedItems
       nodeB.id = true) := by
  refine ⟨fun st item h i => deselect_highlight st item h i, ?_, ?_, ?_⟩ <;> decide

/-- Witness for C7: the general removal equation applied after selecting
nodeA on the empty canvas. -/
theorem deselect_unhighlights_without_refcount_witness :
    (deselect (select stEmpty nodeA) nodeA).highlightedLinks 5
      = ((select stEmpty nodeA).highlightedLinks 5 && !(nodeA.linkIds.contains 5)) :=
  deselect_unhighlights_without_refcount.1 (select stEmpty nodeA) nodeA (by decide) 5

/-! ## Multi-select rectangle (LGraphCanvas handleMultiSelect,
    src/LGraphCanvas.ts lines 3797-3855) -/

/-- An axis-aligned rectangle given as x, y, width, height (the Rect /
Float32Array(4) layout of the source), over integer coordinates. -/
structure Rect where
  x : Int
  y : Int
  w : Int
  h : Int
deriving DecidableEq

/-- Modelled from the spec: overlapBounding from ./measure (geometry
utilities, section 2; the file is not under src/): bounding-box overlap of
two rectangles, edges touching counts as overlap. -/
def overlapBounding (a b : Rect) : Bool :=
  !(decide (a.x > b.x + b.w) || decide (a.y > b.y + b.h) ||
    decide (a.x + a.w < b.x) || decide (a.y + a.h < b.y))

/-- Modelled from the spec: containsRect from ./measure (not under src/):
whether rectangle b lies wholly inside rectangle a. -/
def containsRect (a b : Rect) : Bool :=
  decide (a.x ≤ b.x) && decide (a.y ≤ b.y) &&
  decide (b.x + b.w ≤ a.x + a.w) && decide (b.y + b.h ≤ a.y + a.h)

/-- Modelled from the spec: isPointInRect from ./measure (not under src/):
point/rect containment, closed on the low edges and open on the high edges. -/
def isPointInRect (px py : Int) (r : Rect) : Bool :=
  decide (r.x ≤ px) && decide (r.y ≤ py) &&
  decide (px < r.x + r.w) && decide (py < r.y + r.h)

/-- The in-place normalisation at the top of handleMultiSelect (lines
3802-3807): take absolute width/height and shift the origin when the drag
went up/left. -/
def normalizeDragRect (r : Rect) : Rect :=
  let w := |r.w|
  let h := |r.h|
  { x := if r.w < 0 then r.x - w else r.x
    y := if r.h < 0 then r.y - h else r.y
    w := w
    h := h }

/-- A node as seen by handleMultiSelect: its Positionable identity plus its
boundingRect. -/
structure GNode where
  item : Positionable
  boundingRect : Rect

/-- A group as seen by handleMultiSelect: its Positionable identity plus its
bounding rectangle. -/
structure GGroup where
  item : Positionable
  bounding : Rect

/-- A reroute as seen by handleMultiSelect: its Positionable identity plus
its centre position. -/
structure GReroute where
  item : Positionable
  posX : Int
  posY : Int

/-- Modelled from the spec: the graph-model collaborator's item stores
(nodes, groups, reroutes traversed by handleMultiSelect); the LGraph class
is not under src/. -/
structure MGraph where
  nodes : List GNode
  groups : List GGroup
  reroutes : List GReroute

/-- The shared push step of the classification loops: an item goes to the
notSelected list when its selected flag is off or it is missing from the
selection set, and to the isSelected list otherwise. -/
def classifyStep (st : SelectionState) (acc : List Positionable × List Positionable)
    (p : Positionable) : List Positionable × List Positionable :=
  if !(st.selectedFlag p.id) || !(memId st.selectedItems p.id)
  then (acc.1, acc.2 ++ [p]) else (acc.1 ++ [p], acc.2)

/-- The node loop (lines 3812-3818): any overlap of the node's bounding
rectangle with the drag rectangle classifies the node. -/
def classifyNodes (st : SelectionState) (rect : Rect) (ns : List GNode) :
    List Positionable × List Positionable :=
  ns.foldl
    (fun acc n =>
      if !(overlapBounding rect n.boundingRect) then acc
      else classifyStep st acc n.item)
    ([], [])

/-- The group loop (lines 3821-3828): a group is classified only when it is
wholly inside the drag rectangle.  (The recomputeInsideNodes call only
refreshes the group's child cache and does not touch selection state.) -/
def classifyGroups (st : SelectionState) (rect : Rect) (gs : List GGroup) :
    List Positionable × List Positionable :=
  gs.foldl
    (fun acc g =>
      if !(containsRect rect g.bounding) then acc
      else classifyStep st acc g.item)
    ([], [])

/-- One iteration of the reroute loop (lines 3830-3840): a reroute whose
centre point is in the drag rectangle is first force-added to the selection
(selectedItems.add plus selected = true) and then classified - the
classification test can therefore only ever put it in the isSelected list. -/
def rerouteStep (rect : Rect)
    (acc : SelectionState × (List Positionable × List Positionable))
    (r : GReroute) : SelectionState × (List Positionable × List Positionable) :=
  if !(isPointInRect r.posX r.posY rect) then acc
  else
    let st' : SelectionState :=
      { acc.1 with
        selectedItems := setAdd acc.1.selectedItems r.item
        selectedFlag := setFlag acc.1.selectedFlag r.item.id true }
    if !(st'.selectedFlag r.item.id) || !(memId st'.selectedItems r.item.id)
    then (st', (acc.2.1, acc.2.2 ++ [r.item]))
    else (st', (acc.2.1 ++ [r.item], acc.2.2))

/-- The reroute loop of handleMultiSelect. -/
def classifyReroutes (rect : Rect) (rs : List GReroute) (st : SelectionState) :
    SelectionState × (List Positionable × List Positionable) :=
  rs.foldl (rerouteStep rect) (st, ([], []))

/-- LGraphCanvas handleMultiSelect (lines 3797-3855): normalise the drag
rectangle, classify nodes, groups and reroutes into isSelected/notSelected,
then union (shift), subtract (alt) or replace (no modifier) the selection. -/
def handleMultiSelect (st : SelectionState) (g : MGraph) (shiftKey altKey : Bool)
    (dragRect : Rect) : SelectionState :=
  let rect := normalizeDragRect dragRect
  let ns := classifyNodes st rect g.nodes
  let gs := classifyGroups st rect g.groups
  let rr := classifyReroutes rect g.reroutes st
  let st1 := rr.1
  let isSel := ns.1 ++ gs.1 ++ rr.2.1
  let notSel := ns.2 ++ gs.2 ++ rr.2.2
  if shiftKey then
    notSel.foldl select st1
  else if altKey then
    isSel.foldl deselect st1
  else
    let st2 := st1.selectedItems.foldl
      (fun s p => if !(isSel.any fun q => q.id == p.id) then deselect s p else s) st1
    notSel.foldl select st2

/-- The set of item ids the source classifies: nodes by bounding-box
overlap, groups by whole containment, reroutes by centre point. -/
def classifiedIds (g : MGraph) (rect : Rect) : List Nat :=
  ((g.nodes.filter fun n => overlapBounding rect n.boundingRect).map
    fun n => n.item.id) ++
  ((g.groups.filter fun gr => containsRect rect gr.bounding).map
    fun gr => gr.item.id) ++
  ((g.reroutes.filter fun r => isPointInRect r.posX r.posY rect).map
    fun r => r.item.id)

/-- Membership of an id in a list of ids. -/
def hasId (ids : List Nat) (i : Nat) : Bool :=
  ids.any fun j => j == i

theorem beqComm (a b : Nat) : (a == b) = (b == a) := by
  by_cases h : a = b
  · subst h; rfl
  · rw [beq_eq_false_iff_ne.mpr h, beq_eq_false_iff_ne.mpr (Ne.symm h)]

theorem hasId_append (a b : List Nat) (i : Nat) :
    hasId (a ++ b) i = (hasId a i || hasId b i) := by
  simp [hasId, List.any_append]

theorem foldl_select_flag (l : List Positionable) (st : SelectionState) (i : Nat) :
    (l.foldl select st).selectedFlag i = (memId l i || st.selectedFlag i) := by
  induction l generalizing st with
  | nil => simp [memId]
  | cons p t ih =>
    simp only [List.foldl_cons, memId, List.any_cons]
    rw [ih, select_flag]
    by_cases h : i = p.id
    · subst h; simp [memId]
    · simp [beq_eq_false_iff_ne.mpr h, beq_eq_false_iff_ne.mpr (Ne.symm h), memId]

theorem foldl_select_mem (l : List Positionable) (st : SelectionState) (i : Nat) :
    memId (l.foldl select st).selectedItems i
      = (memId l i || memId st.selectedItems i) := by
  induction l generalizing st with
  | nil => simp [memId]
  | cons p t ih =>
    rw [List.foldl_cons, ih, select_mem]
    simp only [memId, List.any_cons]
    by_cases h : i = p.id
    · subst h; simp [memId]
    · simp [beq_eq_false_iff_ne.mpr h, beq_eq_false_iff_ne.mpr (Ne.symm h), memId]

theorem foldl_deselect_flag (l : List Positionable) (st : SelectionState) (i : Nat) :
    (l.foldl deselect st).selectedFlag i = (!(memId l i) && st.selectedFlag i) := by
  induction l generalizing st with
  | nil => simp [memId]
  | cons p t ih =>
    simp only [List.foldl_cons, memId, List.any_cons]
    rw [ih, deselect_flag]
    by_cases h : i = p.id
    · subst h; simp [memId]
    · simp [beq_eq_false_iff_ne.mpr h, beq_eq_false_iff_ne.mpr (Ne.symm h), memId]

theorem foldl_deselect_mem (l : List Positionable) (st : SelectionState) (i : Nat) :
    memId (l.foldl deselect st).selectedItems i
      = (!(memId l i) && memId st.selectedItems i) := by
  induction l generalizing st with
  | nil => simp [memId]
  | cons p t ih =>
    rw [List.foldl_cons, ih, deselect_mem]
    simp only [memId, List.any_cons]
    by_cases h : i = p.id
    · subst h; simp [memId]
    · simp [beq_eq_false_iff_ne.mpr h, beq_eq_false_iff_ne.mpr (Ne.symm h), memId]

theorem foldl_condDeselect_flag (cond : Positionable → Bool) (l : List Positionable)
    (st : SelectionState) (i : Nat) :
    (l.foldl (fun s p => if cond p then deselect s p else s) st).selectedFlag i
      = (st.selectedFlag i && !(l.any fun p => (p.id == i) && cond p)) := by
  induction l generalizing st with
  | nil => simp
  | cons p t ih =>
    simp only [List.foldl_cons, List.any_cons]
    rw [ih]
    by_cases hc : cond p = true
    · rw [if_pos hc, deselect_flag, hc]
      by_cases h : i = p.id
      · subst h; simp
      · simp only [beq_eq_false_iff_ne.mpr h, beq_eq_false_iff_ne.mpr (Ne.symm h)]
        cases st.selectedFlag i <;> simp
    · rw [if_neg hc]
      rw [Bool.eq_false_iff.mpr hc]
      simp

theorem foldl_condDeselect_mem (cond : Positionable → Bool) (l : List Positionable)
    (st : SelectionState) (i : Nat) :
    memId (l.foldl (fun s p => if cond p then deselect s p else s) st).selectedItems i
      = (memId st.selectedItems i && !(l.any fun p => (p.id == i) && cond p)) := by
  induction l generalizing st with
  | nil => simp
  | cons p t ih =>
    simp only [List.foldl_cons, List.any_cons]
    rw [ih]
    by_cases hc : cond p = true
    · rw [if_pos hc, deselect_mem, hc]
      by_cases h : i = p.id
      · subst h; simp
      · simp only [beq_eq_false_iff_ne.mpr h, beq_eq_false_iff_ne.mpr (Ne.symm h)]
        cases memId st.selectedItems i <;> simp
    · rw [if_neg hc]
      rw [Bool.eq_false_iff.mpr hc]
      simp

theorem anyId_cond (l : List Positionable) (c : Nat → Bool) (i : Nat) :
    (l.any fun p => (p.id == i) && c p.id) = (memId l i && c i) := by
  induction l with
  | nil => simp [memId]
  | cons p t ih =>
    simp only [List.any_cons, memId, List.any_cons] at *
    rw [ih]
    by_cases h : p.id = i
    · subst h
      cases c p.id <;> cases (t.any fun q => q.id == p.id) <;> simp [memId]
    · simp [beq_eq_false_iff_ne.mpr h, memId]

theorem hasId_cons (j : Nat) (ids : List Nat) (i : Nat) :
    hasId (j :: ids) i = (j == i || hasId ids i) := by
  simp [hasId]

theorem memId_single (p : Positionable) (i : Nat) :
    memId [p] i = (p.id == i) := by
  simp [memId]

theorem classifyFold_memId {α : Type} (st : SelectionState) (test : α → Bool)
    (pos : α → Positionable) (l : List α)
    (acc : List Positionable × List Positionable) (i : Nat) :
    memId (l.foldl
      (fun acc a => if !(test a) then acc else classifyStep st acc (pos a)) acc).1 i
      = (memId acc.1 i ||
         (hasId ((l.filter test).map fun a => (pos a).id) i &&
          (st.selectedFlag i && memId st.selectedItems i))) ∧
    memId (l.foldl
      (fun acc a => if !(test a) then acc else classifyStep st acc (pos a)) acc).2 i
      = (memId acc.2 i ||
         (hasId ((l.filter test).map fun a => (pos a).id) i &&
          !(st.selectedFlag i && memId st.selectedItems i))) := by
  induction l generalizing acc with
  | nil => simp [hasId]
  | cons a t ih =>
    simp only [List.foldl_cons]
    by_cases ht : test a = true
    · have hfil : (a :: t).filter test = a :: t.filter test := by
        simp [List.filter_cons, ht]
      rw [hfil, List.map_cons]
      by_cases hsel :
          (st.selectedFlag (pos a).id && memId st.selectedItems (pos a).id) = true
      · have hstep : (if !(test a) then acc else classifyStep st acc (pos a))
            = (acc.1 ++ [pos a], acc.2) := by
          rw [if_neg (by simp [ht])]
          unfold classifyStep
          rw [if_neg (by
            simp only [Bool.and_eq_true] at hsel
            simp [hsel.1, hsel.2])]
        rw [hstep]
        rcases ih (acc.1 ++ [pos a], acc.2) with ⟨ih1, ih2⟩
        dsimp only at ih1 ih2
        rw [ih1, ih2]
        by_cases h : (pos a).id = i
        · have hb : ((pos a).id == i) = true := by rw [h]; exact beq_self_eq_true i
          have hs : (st.selectedFlag i && memId st.selectedItems i) = true :=
            h ▸ hsel
          refine ⟨?_, ?_⟩
          · rw [memId_append, memId_single, hasId_cons, hb, hs]
            simp
          · rw [hasId_cons, hb, hs]
            simp
        · have hb : ((pos a).id == i) = false := beq_eq_false_iff_ne.mpr h
          refine ⟨?_, ?_⟩
          · rw [memId_append, memId_single, hasId_cons, hb]
            simp
          · rw [hasId_cons, hb]
            simp
      · have hstep : (if !(test a) then acc else classifyStep st acc (pos a))
            = (acc.1, acc.2 ++ [pos a]) := by
          rw [if_neg (by simp [ht])]
          unfold classifyStep
          rw [if_pos (by
            cases hf : st.selectedFlag (pos a).id <;>
              cases hm : memId st.selectedItems (pos a).id <;> simp_all)]
        rw [hstep]
        rcases ih (acc.1, acc.2 ++ [pos a]) with ⟨ih1, ih2⟩
        dsimp only at ih1 ih2
        rw [ih1, ih2]
        by_cases h : (pos a).id = i
        · have hb : ((pos a).id == i) = true := by rw [h]; exact beq_self_eq_true i
          have hs : (st.selectedFlag i && memId st.selectedItems i) = false := by
            cases hv : (st.selectedFlag i && memId st.selectedItems i)
            · rfl
            · exact absurd (h ▸ hv) hsel
          refine ⟨?_, ?_⟩
          · rw [hasId_cons, hb, hs]
            simp
          · rw [memId_append, memId_single, hasId_cons, hb, hs]
            simp
        · have hb : ((pos a).id == i) = false := beq_eq_false_iff_ne.mpr h
          refine ⟨?_, ?_⟩
          · rw [hasId_cons, hb]
            simp
          · rw [memId_append, memId_single, hasId_cons, hb]
            simp
    · have hstep : (if !(test a) then acc else classifyStep st acc (pos a)) = acc := by
        rw [if_pos (by simp [Bool.eq_false_iff.mpr ht])]
      have hfil : (a :: t).filter test = t.filter test := by
        simp [List.filter_cons, Bool.eq_false_iff.mpr ht]
      rw [hstep, hfil]
      exact ih acc

/-- The node ids classified by the node loop. -/
def nodeClassIds (rect : Rect) (ns : List GNode) : List Nat :=
  (ns.filter fun n => overlapBounding rect n.boundingRect).map fun n => n.item.id

/-- The group ids classified by the group loop. -/
def groupClassIds (rect : Rect) (gs : List GGroup) : List Nat :=
  (gs.filter fun gr => containsRect rect gr.bounding).map fun gr => gr.item.id

/-- The reroute ids classified (and force-added) by the reroute loop. -/
def rerouteClassIds (rect : Rect) (rs : List GReroute) : List Nat :=
  (rs.filter fun r => isPointInRect r.posX r.posY rect).map fun r => r.item.id

theorem classifyNodes_memId (st : SelectionState) (rect : Rect) (ns : List GNode)
    (i : Nat) :
    memId (classifyNodes st rect ns).1 i
      = (hasId (nodeClassIds rect ns) i &&
         (st.selectedFlag i && memId st.selectedItems i)) ∧
    memId (classifyNodes st rect ns).2 i
      = (hasId (nodeClassIds rect ns) i &&
         !(st.selectedFlag i && memId st.selectedItems i)) := by
  have h := classifyFold_memId st (fun n => overlapBounding rect n.boundingRect)
    (fun n => n.item) ns ([], []) i
  simpa [classifyNodes, nodeClassIds, memId] using h

theorem classifyGroups_memId (st : SelectionState) (rect : Rect) (gs : List GGroup)
    (i : Nat) :
    memId (classifyGroups st rect gs).1 i
      = (hasId (groupClassIds rect gs) i &&
         (st.selectedFlag i && memId st.selectedItems i)) ∧
    memId (classifyGroups st rect gs).2 i
      = (hasId (groupClassIds rect gs) i &&
         !(st.selectedFlag i && memId st.selectedItems i)) := by
  have h := classifyFold_memId st (fun g => containsRect rect g.bounding)
    (fun g => g.item) gs ([], []) i
  simpa [classifyGroups, groupClassIds, memId] using h

theorem rerouteFold_spec (rect : Rect) (rs : List GReroute)
    (acc : SelectionState × (List Positionable × List Positionable)) (i : Nat) :
    ((rs.foldl (rerouteStep rect) acc).1.selectedFlag i
      = (acc.1.selectedFlag i || hasId (rerouteClassIds rect rs) i)) ∧
    (memId (rs.foldl (rerouteStep rect) acc).1.selectedItems i
      = (memId acc.1.selectedItems i || hasId (rerouteClassIds rect rs) i)) ∧
    ((rs.foldl (rerouteStep rect) acc).1.selectedNodes = acc.1.selectedNodes) ∧
    ((rs.foldl (rerouteStep rect) acc).1.highlightedLinks = acc.1.highlightedLinks) ∧
    (memId (rs.foldl (rerouteStep rect) acc).2.1 i
      = (memId acc.2.1 i || hasId (rerouteClassIds rect rs) i)) ∧
    ((rs.foldl (rerouteStep rect) acc).2.2 = acc.2.2) := by
  induction rs generalizing acc with
  | nil => simp [rerouteClassIds, hasId]
  | cons r t ih =>
    simp only [List.foldl_cons]
    by_cases hp : isPointInRect r.posX r.posY rect = true
    · have hfil : rerouteClassIds rect (r :: t)
          = r.item.id :: rerouteClassIds rect t := by
        simp [rerouteClassIds, List.filter_cons, hp]
      rw [hfil]
      have hstep : rerouteStep rect acc r
          = ({ acc.1 with
               selectedItems := setAdd acc.1.selectedItems r.item
               selectedFlag := setFlag acc.1.selectedFlag r.item.id true },
             (acc.2.1 ++ [r.item], acc.2.2)) := by
        unfold rerouteStep
        rw [if_neg (by simp [hp])]
        dsimp only
        rw [if_neg (by simp [setFlag, memId_setAdd])]
      rw [hstep]
      rcases ih ({ acc.1 with
          selectedItems := setAdd acc.1.selectedItems r.item
          selectedFlag := setFlag acc.1.selectedFlag r.item.id true },
          (acc.2.1 ++ [r.item], acc.2.2)) with ⟨ih1, ih2, ih3, ih4, ih5, ih6⟩
      dsimp only at ih1 ih2 ih3 ih4 ih5 ih6
      rw [ih1, ih2, ih3, ih4, ih5, ih6]
      refine ⟨?_, ?_, rfl, rfl, ?_, rfl⟩
      · rw [hasId_cons]
        by_cases h : r.item.id = i
        · have hb : (r.item.id == i) = true := by rw [h]; exact beq_self_eq_true i
          have hb' : (i == r.item.id) = true := by rw [h]; exact beq_self_eq_true i
          rw [hb]
          simp [setFlag, hb']
        · have hb : (r.item.id == i) = false := beq_eq_false_iff_ne.mpr h
          have hb' : (i == r.item.id) = false :=
            beq_eq_false_iff_ne.mpr (Ne.symm h)
          rw [hb]
          simp [setFlag, hb']
      · rw [hasId_cons, memId_setAdd]
        by_cases h : r.item.id = i
        · have hb : (r.item.id == i) = true := by rw [h]; exact beq_self_eq_true i
          have hb' : (i == r.item.id) = true := by rw [h]; exact beq_self_eq_true i
          rw [hb, hb']
          simp
        · have hb : (r.item.id == i) = false := beq_eq_false_iff_ne.mpr h
          have hb' : (i == r.item.id) = false :=
            beq_eq_false_iff_ne.mpr (Ne.symm h)
          rw [hb, hb']
          simp
      · rw [hasId_cons, memId_append, memId_single]
        by_cases h : r.item.id = i
        · have hb : (r.item.id == i) = true := by rw [h]; exact beq_self_eq_true i
          rw [hb]
          simp
        · have hb : (r.item.id == i) = false := beq_eq_false_iff_ne.mpr h
          rw [hb]
          simp
    · have hstep : rerouteStep rect acc r = acc := by
        unfold rerouteStep
        rw [if_pos (by simp [Bool.eq_false_iff.mpr hp])]
      have hfil : rerouteClassIds rect (r :: t) = rerouteClassIds rect t := by
        simp [rerouteClassIds, List.filter_cons, Bool.eq_false_iff.mpr hp]
      rw [hstep, hfil]
      exact ih acc

theorem anyId_notMem (L l : List Positionable) (i : Nat) :
    (l.any fun p => (p.id == i) && !(L.any fun q => q.id == p.id))
      = (memId l i && !(L.any fun q => q.id == i)) :=
  anyId_cond l (fun j => !(L.any fun q => q.id == j)) i

theorem handleMultiSelect_spec (st : SelectionState) (g : MGraph) (dragRect : Rect)
    (hInv : SelInvariant st) :
    (∀ (alt : Bool) (i : Nat),
      (handleMultiSelect st g true alt dragRect).selectedFlag i
        = (st.selectedFlag i ||
           hasId (classifiedIds g (normalizeDragRect dragRect)) i) ∧
      memId (handleMultiSelect st g true alt dragRect).selectedItems i
        = (st.selectedFlag i ||
           hasId (classifiedIds g (normalizeDragRect dragRect)) i)) ∧
    (∀ i : Nat,
      (handleMultiSelect st g false true dragRect).selectedFlag i
        = (st.selectedFlag i &&
           !(hasId (classifiedIds g (normalizeDragRect dragRect)) i)) ∧
      memId (handleMultiSelect st g false true dragRect).selectedItems i
        = (st.selectedFlag i &&
           !(hasId (classifiedIds g (normalizeDragRect dragRect)) i))) ∧
    (∀ i : Nat,
      (handleMultiSelect st g false false dragRect).selectedFlag i
        = hasId (classifiedIds g (normalizeDragRect dragRect)) i ∧
      memId (handleMultiSelect st g false false dragRect).selectedItems i
        = hasId (classifiedIds g (normalizeDragRect dragRect)) i) := by
  have hS : ∀ i, (st.selectedFlag i && memId st.selectedItems i)
      = st.selectedFlag i := by
    intro i; rw [← hInv i, Bool.and_self]
  have hM : ∀ i, memId st.selectedItems i = st.selectedFlag i := by
    intro i; rw [hInv i]
  have hcl : ∀ i, hasId (classifiedIds g (normalizeDragRect dragRect)) i
      = ((hasId (nodeClassIds (normalizeDragRect dragRect) g.nodes) i ||
          hasId (groupClassIds (normalizeDragRect dragRect) g.groups) i) ||
         hasId (rerouteClassIds (normalizeDragRect dragRect) g.reroutes) i) := by
    intro i
    simp [classifiedIds, nodeClassIds, groupClassIds, rerouteClassIds,
      hasId_append, Bool.or_assoc]
  rcases rerouteFold_spec (normalizeDragRect dragRect) g.reroutes
    (st, ([], [])) 0 with ⟨_, _, _, _, _, hrr6⟩
  dsimp only at hrr6
  refine ⟨?_, ?_, ?_⟩
  · intro alt i
    have h1 : handleMultiSelect st g true alt dragRect
        = ((classifyNodes st (normalizeDragRect dragRect) g.nodes).2 ++
           (classifyGroups st (normalizeDragRect dragRect) g.groups).2 ++
           (classifyReroutes (normalizeDragRect dragRect) g.reroutes st).2.2).foldl
            select
            (classifyReroutes (normalizeDragRect dragRect) g.reroutes st).1 := by
      simp [handleMultiSelect]
    rcases rerouteFold_spec (normalizeDragRect dragRect) g.reroutes
      (st, ([], [])) i with ⟨hr1, hr2, _, _, _, _⟩
    dsimp only at hr1 hr2
    rw [h1]
    simp only [classifyReroutes]
    rw [foldl_select_flag, foldl_select_mem, memId_append, memId_append,
      (classifyNodes_memId st _ g.nodes i).2,
      (classifyGroups_memId st _ g.groups i).2, hS, hrr6, hr1, hr2, hM, hcl]
    constructor <;>
      (cases hf : st.selectedFlag i <;>
       cases hnd : hasId (nodeClassIds (normalizeDragRect dragRect) g.nodes) i <;>
       cases hgp : hasId (groupClassIds (normalizeDragRect dragRect) g.groups) i <;>
       cases hrr : hasId (rerouteClassIds (normalizeDragRect dragRect) g.reroutes) i <;>
       rfl)
  · intro i
    have h1 : handleMultiSelect st g false true dragRect
        = ((classifyNodes st (normalizeDragRect dragRect) g.nodes).1 ++
           (classifyGroups st (normalizeDragRect dragRect) g.groups).1 ++
           (classifyReroutes (normalizeDragRect dragRect) g.reroutes st).2.1).foldl
            deselect
            (classifyReroutes (normalizeDragRect dragRect) g.reroutes st).1 := by
      simp [handleMultiSelect]
    rcases rerouteFold_spec (normalizeDragRect dragRect) g.reroutes
      (st, ([], [])) i with ⟨hr1, hr2, _, _, hr5, _⟩
    dsimp only at hr1 hr2 hr5
    rw [h1]
    simp only [classifyReroutes]
    rw [foldl_deselect_flag, foldl_deselect_mem, memId_append, memId_append,
      (classifyNodes_memId st _ g.nodes i).1,
      (classifyGroups_memId st _ g.groups i).1, hS, hr5, hr1, hr2, hM, hcl]
    simp only [memId, List.any_nil]
    constructor <;>
      (cases hf : st.selectedFlag i <;>
       cases hnd : hasId (nodeClassIds (normalizeDragRect dragRect) g.nodes) i <;>
       cases hgp : hasId (groupClassIds (normalizeDragRect dragRect) g.groups) i <;>
       cases hrr : hasId (rerouteClassIds (normalizeDragRect dragRect) g.reroutes) i <;>
       rfl)
  · intro i
    have h1 : handleMultiSelect st g false false dragRect
        = ((classifyNodes st (normalizeDragRect dragRect) g.nodes).2 ++
           (classifyGroups st (normalizeDragRect dragRect) g.groups).2 ++
           (classifyReroutes (normalizeDragRect dragRect) g.reroutes st).2.2).foldl
            select
            ((classifyReroutes (normalizeDragRect dragRect) g.reroutes st).1.selectedItems.foldl
              (fun s p =>
                if !(((classifyNodes st (normalizeDragRect dragRect) g.nodes).1 ++
                      (classifyGroups st (normalizeDragRect dragRect) g.groups).1 ++
                      (classifyReroutes (normalizeDragRect dragRect) g.reroutes st).2.1).any
                        fun q => q.id == p.id)
                then deselect s p else s)
              (classifyReroutes (normalizeDragRect dragRect) g.reroutes st).1) := by
      simp [handleMultiSelect]
    rcases rerouteFold_spec (normalizeDragRect dragRect) g.reroutes
      (st, ([], [])) i with ⟨hr1, hr2, _, _, hr5, _⟩
    dsimp only at hr1 hr2 hr5
    have hmemIsSel :
        (((classifyNodes st (normalizeDragRect dragRect) g.nodes).1 ++
          (classifyGroups st (normalizeDragRect dragRect) g.groups).1 ++
          (classifyReroutes (normalizeDragRect dragRect) g.reroutes st).2.1).any
            fun q => q.id == i)
          = (((hasId (nodeClassIds (normalizeDragRect dragRect) g.nodes) i &&
               st.selectedFlag i) ||
              (hasId (groupClassIds (normalizeDragRect dragRect) g.groups) i &&
               st.selectedFlag i)) ||
             hasId (rerouteClassIds (normalizeDragRect dragRect) g.reroutes) i) := by
      show memId _ i = _
      simp only [classifyReroutes]
      rw [memId_append, memId_append,
        (classifyNodes_memId st _ g.nodes i).1,
        (classifyGroups_memId st _ g.groups i).1, hS, hr5]
      simp only [memId, List.any_nil, Bool.false_or]
    rw [h1, foldl_select_flag, foldl_select_mem, memId_append, memId_append,
      foldl_condDeselect_flag, foldl_condDeselect_mem, anyId_notMem, hmemIsSel]
    simp only [classifyReroutes]
    rw [(classifyNodes_memId st _ g.nodes i).2,
      (classifyGroups_memId st _ g.groups i).2, hS, hrr6, hr1, hr2, hM, hcl]
    simp only [memId, List.any_nil]
    constructor <;>
      (cases hf : st.selectedFlag i <;>
       cases hnd : hasId (nodeClassIds (normalizeDragRect dragRect) g.nodes) i <;>
       cases hgp : hasId (groupClassIds (normalizeDragRect dragRect) g.groups) i <;>
       cases hrr : hasId (rerouteClassIds (normalizeDragRect dragRect) g.reroutes) i <;>
       rfl)

theorem stEmpty_inv : SelInvariant stEmpty := fun _ => rfl

/-- A group whose bounds overlap - but are not wholly inside - the example
drag rectangle. -/
def cexGroup : GGroup := ⟨⟨10, none⟩, ⟨0, 0, 10, 10⟩⟩

/-- A graph holding only cexGroup. -/
def cexGraph : MGraph := ⟨[], [cexGroup], []⟩

/-- A drag rectangle that overlaps cexGroup without containing it. -/
def cexRect : Rect := ⟨5, 5, 10, 10⟩

/-- C9: select, deselect, deselectAll (with or without a kept item) and the
multi-select rectangle classification all preserve the invariant that an
item's selected flag is set exactly when the item is in selectedItems. -/
theorem selection_operations_preserve_invariant
    (st : SelectionState) (hInv : SelInvariant st) :
    (∀ item, SelInvariant (select st item)) ∧
    (∀ item, SelInvariant (deselect st item)) ∧
    (∀ keep, SelInvariant (deselectAll st keep)) ∧
    (∀ (g : MGraph) (sh alt : Bool) (rect : Rect),
      SelInvariant (handleMultiSelect st g sh alt rect)) := by
  refine ⟨?_, ?_, ?_, ?_⟩
  · intro item i
    rw [select_flag, select_mem, hInv i]
  · intro item i
    rw [deselect_flag, deselect_mem, hInv i]
  · intro keep i
    cases keep with
    | none =>
      simp only [deselectAll, memId, List.any_nil]
      by_cases hm : (st.selectedItems.any fun p => p.id == i) = true
      · simp [hm]
      · have hf : st.selectedFlag i = false := by
          rw [hInv i]
          exact Bool.eq_false_iff.mpr (by simpa [memId] using hm)
        simp [Bool.eq_false_iff.mpr hm, hf]
    | some k =>
      show (if memId st.selectedItems i && (i != k.id) then false
            else st.selectedFlag i)
          = memId (if memId st.selectedItems k.id then [k] else []) i
      by_cases hms : memId st.selectedItems k.id = true
      · rw [if_pos hms, memId_single]
        by_cases hk : i = k.id
        · subst hk
          rw [show (k.id != k.id) = false from by simp, Bool.and_false,
            if_neg (by simp), show (k.id == k.id) = true from beq_self_eq_true _,
            hInv k.id, hms]
        · rw [show (i != k.id) = true from by simp [bne_iff_ne, hk],
            Bool.and_true, beq_eq_false_iff_ne.mpr (Ne.symm hk)]
          by_cases hm : memId st.selectedItems i = true
          · rw [if_pos hm]
          · rw [if_neg hm, hInv i]
            exact Bool.eq_false_iff.mpr hm
      · rw [if_neg hms, show memId ([] : List Positionable) i = false from rfl]
        by_cases hk : i = k.id
        · subst hk
          rw [show (k.id != k.id) = false from by simp, Bool.and_false,
            if_neg (by simp), hInv k.id]
          exact Bool.eq_false_iff.mpr hms
        · rw [show (i != k.id) = true from by simp [bne_iff_ne, hk],
            Bool.and_true]
          by_cases hm : memId st.selectedItems i = true
          · rw [if_pos hm]
          · rw [if_neg hm, hInv i]
            exact Bool.eq_false_iff.mpr hm
  · intro g sh alt rect i
    rcases handleMultiSelect_spec st g rect hInv with ⟨h1, h2, h3⟩
    cases sh
    · cases alt
      · rcases h3 i with ⟨ha, hb⟩; rw [ha, hb]
      · rcases h2 i with ⟨ha, hb⟩; rw [ha, hb]
    · rcases h1 alt i with ⟨ha, hb⟩; rw [ha, hb]

/-- Witness for C9: the operations applied to the empty canvas state. -/
theorem selection_operations_preserve_invariant_witness :
    SelInvariant (select stEmpty nodeA) ∧
    SelInvariant (deselect stEmpty nodeA) ∧
    SelInvariant (deselectAll stEmpty (some nodeA)) ∧
    SelInvariant (handleMultiSelect stEmpty cexGraph false false cexRect) :=
  ⟨(selection_operations_preserve_invariant stEmpty stEmpty_inv).1 nodeA,
   (selection_operations_preserve_invariant stEmpty stEmpty_inv).2.1 nodeA,
   (selection_operations_preserve_invariant stEmpty stEmpty_inv).2.2.1 (some nodeA),
   (selection_operations_preserve_invariant stEmpty stEmpty_inv).2.2.2
     cexGraph false false cexRect⟩

/-- C5 counterexample: the drag rectangle cexRect overlaps the bounds of
cexGroup without containing it, so with no modifier held the claim as stated
says the group must end up selected - but handleMultiSelect classifies groups
by whole containment and leaves it unselected. -/
theorem multiSelect_group_overlap_not_selected :
    overlapBounding (normalizeDragRect cexRect) cexGroup.bounding = true ∧
    containsRect (normalizeDragRect cexRect) cexGroup.bounding = false ∧
    (handleMultiSelect stEmpty cexGraph false false cexRect).selectedFlag
      cexGroup.item.id = false := by
  refine ⟨by decide, by decide, ?_⟩
  rw [((handleMultiSelect_spec stEmpty cexGraph cexRect stEmpty_inv).2.2
    cexGroup.item.id).1]
  decide

/-- C5 (amended): on release of the multi-select rectangle drag, the items
classified are the nodes whose bounding rectangles overlap the normalised
drag rectangle, the groups wholly contained in it, and the reroutes whose
centre point lies in it; the selection is unioned with the classified items
when shift is held, the classified items are removed from it when alt is
held, and with no modifier it is replaced so that exactly the classified
items end up selected. -/
theorem handleMultiSelect_classification (st : SelectionState) (g : MGraph)
    (dragRect : Rect) (hInv : SelInvariant st) :
    (∀ (alt : Bool) (i : Nat),
      (handleMultiSelect st g true alt dragRect).selectedFlag i
        = (st.selectedFlag i ||
           hasId (classifiedIds g (normalizeDragRect dragRect)) i)) ∧
    (∀ i : Nat,
      (handleMultiSelect st g false true dragRect).selectedFlag i
        = (st.selectedFlag i &&
           !(hasId (classifiedIds g (normalizeDragRect dragRect)) i))) ∧
    (∀ i : Nat,
      (handleMultiSelect st g false false dragRect).selectedFlag i
        = hasId (classifiedIds g (normalizeDragRect dragRect)) i) :=
  ⟨fun alt i => ((handleMultiSelect_spec st g dragRect hInv).1 alt i).1,
   fun i => ((handleMultiSelect_spec st g dragRect hInv).2.1 i).1,
   fun i => ((handleMultiSelect_spec st g dragRect hInv).2.2 i).1⟩

/-- Witness for C5: the replace-mode formula evaluated on the example graph. -/
theorem handleMultiSelect_classification_witness :
    (handleMultiSelect stEmpty cexGraph false false cexRect).selectedFlag 10
      = hasId (classifiedIds cexGraph (normalizeDragRect cexRect)) 10 :=
  (handleMultiSelect_classification stEmpty cexGraph cexRect stEmpty_inv).2.2 10

/-! ## Link routing (LGraphCanvas.renderLink, src/LGraphCanvas.ts lines
    5728-6002, and the private spline-offset helper, lines 6047-6067) -/

/-- Link direction hints.  Modelled from the spec: the LinkDirection enum
lives in types/globalEnums (not under src/); the source treats the falsy
member (here dirNone) as unset, defaulting to RIGHT at the start anchor and
LEFT at the end anchor. -/
inductive LinkDirection
  | dirNone
  | up
  | down
  | left
  | right
  | center
deriving DecidableEq

/-- A point in graph space, with exact rational coordinates standing in for
the JS doubles (every constant the routing code uses is a small rational). -/
structure QPoint where
  x : ℚ
  y : ℚ
deriving DecidableEq

/-- One Path2D command recorded while building a link path. -/
inductive PathCmd
  | moveTo (p : QPoint)
  | bezierCurveTo (c1 c2 p : QPoint)
  | lineTo (p : QPoint)
deriving DecidableEq

/-- LGraphCanvas addSplineOffset (lines 6047-6067): offset a point along a
single axis by dist x factor according to the direction hint; directions
outside the four axis cases leave the point unchanged.  The source's default
factor 0.25 is passed explicitly at the call sites. -/
def addSplineOffset (point : QPoint) (direction : LinkDirection)
    (dist factor : ℚ) : QPoint :=
  match direction with
  | LinkDirection.left => { point with x := point.x + dist * (-factor) }
  | LinkDirection.right => { point with x := point.x + dist * factor }
  | LinkDirection.up => { point with y := point.y + dist * (-factor) }
  | LinkDirection.down => { point with y := point.y + dist * factor }
  | _ => point

/-- Modelled from the spec: findPointOnCurve from ./measure (not under
src/): direct weighted-sum evaluation of the cubic bezier from a to b with
control points controlA and controlB at parameter t - the very same
weighted sum the in-repository computeConnectionPoint (lines 6030-6037)
uses. -/
def findPointOnCurve (a b controlA controlB : QPoint) (t : ℚ) : QPoint :=
  let c1 := (1 - t) * (1 - t) * (1 - t)
  let c2 := 3 * ((1 - t) * (1 - t)) * t
  let c3 := 3 * (1 - t) * (t * t)
  let c4 := t * t * t
  { x := c1 * a.x + c2 * controlA.x + c3 * controlB.x + c4 * b.x
    y := c1 * a.y + c2 * controlA.y + c3 * controlB.y + c4 * b.y }

/-- Squared Euclidean distance.  Modelled from the spec: distance from
./measure (not under src/) is the nonnegative square root of this value;
theorems take the distance as a parameter d constrained by 0 <= d and
d * d = sqDist a b. -/
def sqDist (a b : QPoint) : ℚ :=
  (b.x - a.x) * (b.x - a.x) + (b.y - a.y) * (b.y - a.y)

/-- The cached render state renderLink writes onto the link or reroute
segment: the Path2D assigned to segment.path, the centre point segment._pos,
and whether segment._centreAngle has been written. -/
structure SegmentCache where
  path : List PathCmd
  posX : ℚ
  posY : ℚ
  angleSet : Bool
deriving DecidableEq

/-- Modelled from the spec: LinkRenderType enum values (types/globalEnums is
not under src/): STRAIGHT_LINK, LINEAR_LINK, SPLINE_LINK in order. -/
def STRAIGHT_LINK : Nat := 0

/-- LinkRenderType.LINEAR_LINK. -/
def LINEAR_LINK : Nat := 1

/-- LinkRenderType.SPLINE_LINK. -/
def SPLINE_LINK : Nat := 2

/-- The 15-unit linear-mode stub offset (lines 5834-5862). -/
def linearStub (p : QPoint) (dir : LinkDirection) : QPoint :=
  match dir with
  | LinkDirection.left => { p with x := p.x + (-15) }
  | LinkDirection.right => { p with x := p.x + 15 }
  | LinkDirection.up => { p with y := p.y + (-15) }
  | LinkDirection.down => { p with y := p.y + 15 }
  | _ => p

/-- LGraphCanvas.renderLink (lines 5728-6002) restricted to its cache and
stroke effects, at the default num_sublines = 1 (no call site in the file
passes another value, so offsety = 0).
Inputs mirror the source: the render mode (links_render_mode), anchors a and
b, raw direction hints (falsy hints default to RIGHT / LEFT at lines
5763-5764), optional explicit control-point offsets, the distance d between
the anchors (computed by distance(a, b) in the source and only consulted in
spline mode when a control point is missing), whether a link segment
(reroute ?? link) is present to receive the cache, the segment's prior
cache, and the marker / border flags.
Returns the segment's cache after the call and the number of times the path
was stroked.  Fidelity notes: segment.path is assigned a fresh empty Path2D
at line 5783, before the mode dispatch, so on the unknown-mode early return
(line 5909) the cached path has been replaced by an empty one while _pos and
_centreAngle are untouched; in the known modes the same object has received
the branch's commands by the time the function returns. -/
def renderLinkModel (mode : Nat) (a b : QPoint)
    (start_dir end_dir : LinkDirection)
    (startControl endControl : Option QPoint) (d : ℚ)
    (hasSegment : Bool) (cache : SegmentCache)
    (markerArrow renderBorder skipBorder : Bool) : SegmentCache × Nat :=
  let startDir := if start_dir = LinkDirection.dirNone
    then LinkDirection.right else start_dir
  let endDir := if end_dir = LinkDirection.dirNone
    then LinkDirection.left else end_dir
  let strokes := (if renderBorder && !skipBorder then 1 else 0) + 1
  if mode = SPLINE_LINK then
    let innerB := match endControl with
      | some c => ⟨b.x + c.x, b.y + c.y⟩
      | none => addSplineOffset b endDir d (1/4)
    let innerA := match startControl with
      | some c => ⟨a.x + c.x, a.y + c.y⟩
      | none => addSplineOffset a startDir d (1/4)
    let path := [PathCmd.moveTo a, PathCmd.bezierCurveTo innerA innerB b]
    let pos := findPointOnCurve a b innerA innerB (1/2)
    let cache1 :=
      if hasSegment then
        { path := path
          posX := pos.x
          posY := pos.y
          angleSet := if markerArrow then true else cache.angleSet }
      else cache
    (cache1, strokes)
  else if mode = LINEAR_LINK then
    let innerA := linearStub a startDir
    let innerB := linearStub b endDir
    let path := [PathCmd.moveTo a, PathCmd.lineTo innerA,
      PathCmd.lineTo innerB, PathCmd.lineTo b]
    let cache1 :=
      if hasSegment then
        { path := path
          posX := (innerA.x + innerB.x) * (1/2)
          posY := (innerA.y + innerB.y) * (1/2)
          angleSet := if markerArrow then true else cache.angleSet }
      else cache
    (cache1, strokes)
  else if mode = STRAIGHT_LINK then
    let innerA := if startDir = LinkDirection.right
      then { a with x := a.x + 10 } else { a with y := a.y + 10 }
    let innerB := if endDir = LinkDirection.left
      then { b with x := b.x - 10 } else { b with y := b.y - 10 }
    let midX := (innerA.x + innerB.x) * (1/2)
    let path := [PathCmd.moveTo a, PathCmd.lineTo innerA,
      PathCmd.lineTo ⟨midX, innerA.y⟩, PathCmd.lineTo ⟨midX, innerB.y⟩,
      PathCmd.lineTo innerB, PathCmd.lineTo b]
    let cache1 :=
      if hasSegment then
        { path := path
          posX := midX
          posY := (innerA.y + innerB.y) * (1/2)
          angleSet := if markerArrow then true else cache.angleSet }
      else cache
    (cache1, strokes)
  else
    ((if hasSegment then { cache with path := [] } else cache), 0)

/-- Example prior cache contents, used to observe cache writes. -/
def cacheEx : SegmentCache := ⟨[PathCmd.moveTo ⟨1, 2⟩], 3, 4, false⟩

/-- C4 (amended): for an unrecognized links_render_mode, renderLink never
strokes the path and leaves the cached centre point _pos and _centreAngle
untouched, but the segment's cached path has already been overwritten with a
fresh empty path (assigned at line 5783, before the mode dispatch) by the
time of the early return. -/
theorem renderLink_unknown_mode (mode : Nat) (a b : QPoint)
    (sd ed : LinkDirection) (sc ec : Option QPoint) (d : ℚ)
    (hasSegment : Bool) (cache : SegmentCache) (ma rb sb : Bool)
    (h0 : mode ≠ STRAIGHT_LINK) (h1 : mode ≠ LINEAR_LINK)
    (h2 : mode ≠ SPLINE_LINK) :
    (renderLinkModel mode a b sd ed sc ec d hasSegment cache ma rb sb).2 = 0 ∧
    (renderLinkModel mode a b sd ed sc ec d hasSegment cache ma rb sb).1.posX
      = cache.posX ∧
    (renderLinkModel mode a b sd ed sc ec d hasSegment cache ma rb sb).1.posY
      = cache.posY ∧
    (renderLinkModel mode a b sd ed sc ec d hasSegment cache ma rb sb).1.angleSet
      = cache.angleSet ∧
    (renderLinkModel mode a b sd ed sc ec d hasSegment cache ma rb sb).1.path
      = (if hasSegment then [] else cache.path) := by
  unfold renderLinkModel
  rw [if_neg h2, if_neg h1, if_neg h0]
  cases hasSegment <;> simp

/-- Witness for C4 at mode 3 on the example cache. -/
theorem renderLink_unknown_mode_witness :
    (renderLinkModel 3 ⟨0, 0⟩ ⟨100, 0⟩ LinkDirection.right LinkDirection.left
        none none 100 true cacheEx false false false).2 = 0 ∧
    (renderLinkModel 3 ⟨0, 0⟩ ⟨100, 0⟩ LinkDirection.right LinkDirection.left
        none none 100 true cacheEx false false false).1.posX = cacheEx.posX :=
  ⟨(renderLink_unknown_mode 3 ⟨0, 0⟩ ⟨100, 0⟩ LinkDirection.right
      LinkDirection.left none none 100 true cacheEx false false false
      (by decide) (by decide) (by decide)).1,
   (renderLink_unknown_mode 3 ⟨0, 0⟩ ⟨100, 0⟩ LinkDirection.right
      LinkDirection.left none none 100 true cacheEx false false false
      (by decide) (by decide) (by decide)).2.1⟩

/-- C4 counterexample: at links_render_mode = 3 with a segment present, the
cached path object is modified (replaced by a new empty path), refuting the
claim that no cached render field is written on the unknown-mode return. -/
theorem renderLink_unknown_mode_path_overwritten :
    (renderLinkModel 3 ⟨0, 0⟩ ⟨100, 0⟩ LinkDirection.right LinkDirection.left
        none none 100 true cacheEx false false false).1.path ≠ cacheEx.path ∧
    (renderLinkModel 3 ⟨0, 0⟩ ⟨100, 0⟩ LinkDirection.right LinkDirection.left
        none none 100 true cacheEx false false false).2 = 0 := by
  constructor
  · intro h
    simp [renderLinkModel, cacheEx, STRAIGHT_LINK, LINEAR_LINK, SPLINE_LINK] at h
  · simp [renderLinkModel, STRAIGHT_LINK, LINEAR_LINK, SPLINE_LINK]

/-- C3: in spline (curved) mode with no explicit control points, the path is
a single cubic bezier whose control points are the anchors offset along
their (defaulted) direction hints by 0.25 x the anchor distance, and the
cached centre point is the bezier evaluated at t = 0.5 by direct
weighted-sum evaluation; consequently for A = (0,0), B = (100,0) with hints
RIGHT and LEFT (where the distance d satisfies 0 <= d and d * d =
sqDist A B, i.e. d = 100) the centre's x-coordinate is exactly 50. -/
theorem renderLink_spline_centre :
    (∀ (a b : QPoint) (sd ed : LinkDirection) (d : ℚ) (cache : SegmentCache)
       (ma rb sb : Bool),
      sd ≠ LinkDirection.dirNone → ed ≠ LinkDirection.dirNone →
      (renderLinkModel SPLINE_LINK a b sd ed none none d true cache
          ma rb sb).1.path
        = [PathCmd.moveTo a,
           PathCmd.bezierCurveTo (addSplineOffset a sd d (1/4))
             (addSplineOffset b ed d (1/4)) b] ∧
      (renderLinkModel SPLINE_LINK a b sd ed none none d true cache
          ma rb sb).1.posX
        = (findPointOnCurve a b (addSplineOffset a sd d (1/4))
            (addSplineOffset b ed d (1/4)) (1/2)).x ∧
      (renderLinkModel SPLINE_LINK a b sd ed none none d true cache
          ma rb sb).1.posY
        = (findPointOnCurve a b (addSplineOffset a sd d (1/4))
            (addSplineOffset b ed d (1/4)) (1/2)).y) ∧
    (∀ (d : ℚ) (cache : SegmentCache) (ma rb sb : Bool),
      0 ≤ d → d * d = sqDist ⟨0, 0⟩ ⟨100, 0⟩ →
      (renderLinkModel SPLINE_LINK ⟨0, 0⟩ ⟨100, 0⟩ LinkDirection.right
          LinkDirection.left none none d true cache ma rb sb).1.posX = 50) := by
  constructor
  · intro a b sd ed d cache ma rb sb hsd hed
    refine ⟨?_, ?_, ?_⟩ <;>
      simp [renderLinkModel, SPLINE_LINK, hsd, hed]
  · intro d cache ma rb sb hd hsq
    have hsq' : d * d = 100 * 100 := by
      rw [hsq]; norm_num [sqDist]
    have hfac : (d - 100) * (d + 100) = 0 := by linear_combination hsq'
    have h100 : d = 100 := by
      rcases mul_eq_zero.mp hfac with h | h
      · linarith
      · linarith
    subst h100
    norm_num [renderLinkModel, SPLINE_LINK, addSplineOffset, findPointOnCurve]

/-- Witness for C3: the concrete symmetric anchors with d = 100 and the
general equations instantiated at the same input. -/
theorem renderLink_spline_centre_witness :
    (renderLinkModel SPLINE_LINK ⟨0, 0⟩ ⟨100, 0⟩ LinkDirection.right
        LinkDirection.left none none 100 true cacheEx false false false).1.posX
      = 50 ∧
    (renderLinkModel SPLINE_LINK ⟨0, 0⟩ ⟨100, 0⟩ LinkDirection.right
        LinkDirection.left none none 100 true cacheEx false false false).1.path
      = [PathCmd.moveTo ⟨0, 0⟩,
         PathCmd.bezierCurveTo
           (addSplineOffset ⟨0, 0⟩ LinkDirection.right 100 (1/4))
           (addSplineOffset ⟨100, 0⟩ LinkDirection.left 100 (1/4)) ⟨100, 0⟩] :=
  ⟨renderLink_spline_centre.2 100 cacheEx false false false
     (by norm_num) (by norm_num [sqDist]),
   (renderLink_spline_centre.1 ⟨0, 0⟩ ⟨100, 0⟩ LinkDirection.right
     LinkDirection.left 100 cacheEx false false false
     (by decide) (by decide)).1⟩

/-! ## Pointer cancellation and gesture cleanup (processMouseCancel, lines
    3291-3294, and the finally hooks installed by the gestures of
    processMouseDown / processNodeClick) -/

/-- The mode flags of the interaction state machine, plus the
before/after-change bracketing observed by the undo system. -/
structure CanvasFlags where
  isDragging : Bool
  resizingGroup : Bool
  resizing_node : Bool
  dragging_canvas : Bool
  dragging_rectangle : Bool
  beforeChangeFired : Bool
  afterChangeFired : Bool

/-- The pointer session as the canvas sees it: the down/double/drag flags
and the finally hook, which runs against the canvas flags. -/
structure CanvasPointerState where
  isDown : Bool
  isDouble : Bool
  dragStarted : Bool
  fin : Option (CanvasFlags → CanvasFlags)

/-- Modelled from the spec: CanvasPointer.reset (CanvasPointer.ts is not
under src/).  Section 5: a pointer-cancel unconditionally resets the pointer
session without running the normal up-branch, but still must invoke the
gesture's finally hook; reset then clears all session state, including the
hook (so finally is not invoked twice). -/
def pointerReset (p : CanvasPointerState) (c : CanvasFlags) :
    CanvasFlags × CanvasPointerState :=
  let c1 := match p.fin with
    | some f => f c
    | none => c
  (c1, { isDown := false, isDouble := false, dragStarted := false, fin := none })

/-- LGraphCanvas.processMouseCancel (lines 3291-3294): resets the pointer
session. -/
def processMouseCancel (c : CanvasFlags) (p : CanvasPointerState) :
    CanvasFlags × CanvasPointerState :=
  pointerReset p c

/-- startDraggingItems (lines 3088-3100): brackets the gesture with
before/after change, sets pointer.finally to clear isDragging (and fire the
after-change pair), and sets isDragging.  The processSelect side effect is
covered by the selection model. -/
def startDraggingItems (c : CanvasFlags) (p : CanvasPointerState) :
    CanvasFlags × CanvasPointerState :=
  ({ c with beforeChangeFired := true, isDragging := true },
   { p with fin := some fun c1 =>
      { c1 with isDragging := false, afterChangeFired := true } })

/-- The node-resize gesture (processNodeClick, lines 2327-2362), as it
stands once onDragStart has fired: resizing_node is set and finally clears
it. -/
def startResizingNode (c : CanvasFlags) (p : CanvasPointerState) :
    CanvasFlags × CanvasPointerState :=
  ({ c with beforeChangeFired := true, resizing_node := true },
   { p with fin := some fun c1 => { c1 with resizing_node := false } })

/-- The group-resize gesture (processPrimaryButton, lines 2217-2238), once
onDragStart has fired: resizingGroup is set and finally clears it. -/
def startResizingGroup (c : CanvasFlags) (p : CanvasPointerState) :
    CanvasFlags × CanvasPointerState :=
  ({ c with resizingGroup := true },
   { p with fin := some fun c1 => { c1 with resizingGroup := false } })

/-- The canvas-pan fallback (processPrimaryButton, lines 2284-2293): sets
dragging_canvas immediately and finally clears it. -/
def startCanvasPan (c : CanvasFlags) (p : CanvasPointerState) :
    CanvasFlags × CanvasPointerState :=
  ({ c with dragging_canvas := true },
   { p with fin := some fun c1 => { c1 with dragging_canvas := false } })

/-- The multi-select rectangle gesture (processPrimaryButton, lines
2072-2089), once onDragStart has fired: dragging_rectangle is set and
finally clears it. -/
def startMultiSelectRect (c : CanvasFlags) (p : CanvasPointerState) :
    CanvasFlags × CanvasPointerState :=
  ({ c with dragging_rectangle := true },
   { p with fin := some fun c1 => { c1 with dragging_rectangle := false } })

/-- C1: processMouseCancel runs the pointer reset, which invokes the
installed finally hook exactly once and clears it; consequently, for every
gesture of the source that sets a mode flag and installs a finally hook
(item drag, node resize, group resize, canvas pan, multi-select rectangle),
a cancel arriving mid-gesture leaves that gesture's mode flag off. -/
theorem processMouseCancel_runs_finally :
    (∀ (c : CanvasFlags) (p : CanvasPointerState) (f : CanvasFlags → CanvasFlags),
      p.fin = some f →
      (processMouseCancel c p).1 = f c ∧ (processMouseCancel c p).2.fin = none) ∧
    (∀ (c : CanvasFlags) (p : CanvasPointerState),
      (processMouseCancel (startDraggingItems c p).1
        (startDraggingItems c p).2).1.isDragging = false) ∧
    (∀ (c : CanvasFlags) (p : CanvasPointerState),
      (processMouseCancel (startResizingNode c p).1
        (startResizingNode c p).2).1.resizing_node = false) ∧
    (∀ (c : CanvasFlags) (p : CanvasPointerState),
      (processMouseCancel (startResizingGroup c p).1
        (startResizingGroup c p).2).1.resizingGroup = false) ∧
    (∀ (c : CanvasFlags) (p : CanvasPointerState),
      (processMouseCancel (startCanvasPan c p).1
        (startCanvasPan c p).2).1.dragging_canvas = false) ∧
    (∀ (c : CanvasFlags) (p : CanvasPointerState),
      (processMouseCancel (startMultiSelectRect c p).1
        (startMultiSelectRect c p).2).1.dragging_rectangle = false) := by
  refine ⟨?_, ?_, ?_, ?_, ?_, ?_⟩
  · intro c p f hf
    constructor <;> simp [processMouseCancel, pointerReset, hf]
  all_goals
    intro c p
    rfl

/-- All-false canvas flags. -/
def flagsClear : CanvasFlags := ⟨false, false, false, false, false, false, false⟩

/-- An idle pointer session. -/
def pointerIdle : CanvasPointerState := ⟨false, false, false, none⟩

/-- Witness for C1: a cancel during an item drag started from the idle
state runs the installed hook and clears isDragging. -/
theorem processMouseCancel_runs_finally_witness :
    (processMouseCancel (startDraggingItems flagsClear pointerIdle).1
        (startDraggingItems flagsClear pointerIdle).2).1
      = (fun c1 => { c1 with isDragging := false, afterChangeFired := true })
          (startDraggingItems flagsClear pointerIdle).1 ∧
    (processMouseCancel (startDraggingItems flagsClear pointerIdle).1
        (startDraggingItems flagsClear pointerIdle).2).2.fin = none ∧
    (processMouseCancel (startDraggingItems flagsClear pointerIdle).1
        (startDraggingItems flagsClear pointerIdle).2).1.isDragging = false :=
  ⟨(processMouseCancel_runs_finally.1
      (startDraggingItems flagsClear pointerIdle).1
      (startDraggingItems flagsClear pointerIdle).2
      (fun c1 => { c1 with isDragging := false, afterChangeFired := true })
      rfl).1,
   (processMouseCancel_runs_finally.1
      (startDraggingItems flagsClear pointerIdle).1
      (startDraggingItems flagsClear pointerIdle).2
      (fun c1 => { c1 with isDragging := false, afterChangeFired := true })
      rfl).2,
   processMouseCancel_runs_finally.2.1 flagsClear pointerIdle⟩

/-! ## Mouse-up processing (processMouseUp, src/LGraphCanvas.ts lines
    3121-3279, and the pending-connection install of processNodeClick,
    lines 2394-2403) -/

/-- An in-progress connection drag (the transient ConnectingLink records of
connecting_links): the anchor node and slot, the slot type when dragging
from an output (link.output) or from an input (link.input), and the
optional reroute anchor. -/
structure CLink where
  nodeId : Nat
  slot : Nat
  output : Option String
  input : Option String
  afterRerouteId : Option Nat
deriving DecidableEq

/-- The graph mutations and events processMouseUp can issue: connect calls,
type-directed best-slot connects, the connecting-to-widget event, the
empty-release event, and the optional legacy menus. -/
inductive GraphAction
  | connect (originNode originSlot targetNode targetSlot : Nat)
      (afterReroute : Option Nat)
  | connectByType (originNode originSlot targetNode : Nat) (ty : String)
      (afterReroute : Option Nat)
  | connectByTypeOutput (originNode originSlot targetNode : Nat) (ty : String)
      (afterReroute : Option Nat)
  | emitConnectingWidgetLink
  | emitEmptyRelease
  | showSearchBox
  | showConnectionMenu
deriving DecidableEq

/-- Whether the action mutates the graph by creating a connection. -/
def GraphAction.isConnect : GraphAction → Bool
  | GraphAction.connect _ _ _ _ _ => true
  | GraphAction.connectByType _ _ _ _ _ => true
  | GraphAction.connectByTypeOutput _ _ _ _ _ => true
  | _ => false

/-- Modelled from the spec: the release-point queries processMouseUp makes
against the graph model and slot geometry - getNodeOnPos (LGraph is not
under src/) and the slot hit results of isOverNodeInput / isOverNodeOutput
(whose geometry depends on LGraphNode.getConnectionPos, not under src/).
A none slot result models the -1 return. -/
structure MouseUpEnv where
  nodeUnder : Option Nat
  overInputSlot : Option Nat
  overOutputSlot : Option Nat

/-- The canvas state processMouseUp reads and writes. -/
structure UpState where
  connecting_links : Option (List CLink)
  dragging_canvas : Bool
  link_over_widget : Bool
  isDragging : Bool
  pointerIsDown : Bool
  pointerIsDouble : Bool
deriving DecidableEq

/-- One iteration of the connection-release loop (lines 3172-3211), for a
release over node nodeId, threading the link_over_widget flag (cleared after
the widget event is emitted). -/
def linkUpStep (env : MouseUpEnv) (nodeId : Nat)
    (acc : Bool × List GraphAction) (link : CLink) : Bool × List GraphAction :=
  if link.output.isSome then
    match env.overInputSlot with
    | some slot =>
      (acc.1, acc.2 ++ [GraphAction.connect link.nodeId link.slot nodeId slot
        link.afterRerouteId])
    | none =>
      if acc.1 then
        (false, acc.2 ++ [GraphAction.emitConnectingWidgetLink])
      else
        (acc.1, acc.2 ++ [GraphAction.connectByType link.nodeId link.slot nodeId
          (link.output.getD "") link.afterRerouteId])
  else if link.input.isSome then
    match env.overOutputSlot with
    | some slot =>
      (acc.1, acc.2 ++ [GraphAction.connect nodeId slot link.nodeId link.slot
        link.afterRerouteId])
    | none =>
      (acc.1, acc.2 ++ [GraphAction.connectByTypeOutput link.nodeId link.slot
        nodeId (link.input.getD "") link.afterRerouteId])
  else acc

/-- The connection-release dispatch (lines 3168-3249): over a node, run the
loop for every pending link; over empty canvas, emit the empty-release
event (plus the legacy menu behaviour when enabled). -/
def linkReleaseActions (env : MouseUpEnv) (links : List CLink) (widget : Bool)
    (releaseLinkMenu allowSearchbox shiftKey : Bool) :
    Bool × List GraphAction :=
  match env.nodeUnder with
  | some nodeId => links.foldl (linkUpStep env nodeId) (widget, [])
  | none =>
    match links with
    | [] => (widget, [])
    | firstLink :: _ =>
      if firstLink.input.isSome || firstLink.output.isSome then
        (widget,
          [GraphAction.emitEmptyRelease] ++
          (if releaseLinkMenu then
            (if shiftKey then
              (if allowSearchbox then [GraphAction.showSearchBox] else [])
             else [GraphAction.showConnectionMenu])
           else []))
      else (widget, [])

/-- LGraphCanvas.processMouseUp (lines 3121-3279) restricted to its
connection and mode-flag effects.  isClick is the value returned by
pointer.up(e) (the CanvasPointer click/drag classification): when true, the
pointer flags are cleared, connecting_links is set to null and
dragging_canvas to false, and the function returns before any of the
connection logic (lines 3138-3150).  Otherwise, for the primary button the
connection-release dispatch runs when connecting_links is non-empty, and
connecting_links is cleared in every case. -/
def processMouseUp (isClick : Bool) (button : Nat) (env : MouseUpEnv)
    (releaseLinkMenu allowSearchbox shiftKey : Bool) (st : UpState) :
    UpState × List GraphAction :=
  if isClick then
    ({ st with pointerIsDown := false, pointerIsDouble := false,
               connecting_links := none, dragging_canvas := false }, [])
  else if button = 0 then
    let st1 : UpState := { st with isDragging := false }
    let hasLinks := match st1.connecting_links with
      | some l => !l.isEmpty
      | none => false
    let widgetActs :=
      if hasLinks then
        match st1.connecting_links with
        | some links =>
          linkReleaseActions env links st1.link_over_widget releaseLinkMenu
            allowSearchbox shiftKey
        | none => (st1.link_over_widget, [])
      else (st1.link_over_widget, [])
    ({ st1 with connecting_links := none, link_over_widget := widgetActs.1,
                pointerIsDown := false, pointerIsDouble := false },
     widgetActs.2)
  else if button = 1 then
    ({ st with dragging_canvas := false, pointerIsDown := false,
               pointerIsDouble := false }, [])
  else
    ({ st with pointerIsDown := false, pointerIsDouble := false }, [])

/-- The pending-connection install of a press on an output slot
(processNodeClick, lines 2394-2403): connecting_links receives a single
ConnectingLink from this node and slot. -/
def installOutputSlotPress (st : UpState) (nodeId slot : Nat) (ty : String) :
    UpState :=
  let link : CLink :=
    { nodeId := nodeId, slot := slot, output := some ty, input := none,
      afterRerouteId := none }
  { st with connecting_links := some [link] }

/-- Modelled from the spec: CanvasPointer.up (CanvasPointer.ts is not under
src/) returns true - a click - exactly when the session never exceeded the
movement/time threshold, i.e. the drag never started. -/
def pointerUpIsClick (p : CanvasPointerState) : Bool :=
  !p.dragStarted

/-- C10: when the release is classified by the pointer session as a click
(pointer.up returns true, i.e. the drag threshold was never exceeded),
processMouseUp sets connecting_links to null and dragging_canvas to false
and returns with no graph actions - so a press on an output slot that
installed a pending ConnectingLink on mouse-down never creates a link. -/
theorem click_release_never_connects (st : UpState) (nodeId slot : Nat)
    (ty : String) (button : Nat) (env : MouseUpEnv) (rlm asb sk : Bool)
    (p : CanvasPointerState) (hp : p.dragStarted = false) :
    (processMouseUp (pointerUpIsClick p) button env rlm asb sk
        (installOutputSlotPress st nodeId slot ty)).1.connecting_links = none ∧
    (processMouseUp (pointerUpIsClick p) button env rlm asb sk
        (installOutputSlotPress st nodeId slot ty)).1.dragging_canvas = false ∧
    (processMouseUp (pointerUpIsClick p) button env rlm asb sk
        (installOutputSlotPress st nodeId slot ty)).2 = [] := by
  have hc : pointerUpIsClick p = true := by simp [pointerUpIsClick, hp]
  rw [hc]
  exact ⟨rfl, rfl, rfl⟩

/-- A canvas state with no pending connection and all flags clear. -/
def upState0 : UpState := ⟨none, false, false, false, false, false⟩

/-- A release point over empty canvas. -/
def envEmpty : MouseUpEnv := ⟨none, none, none⟩

/-- Witness for C10: a sub-threshold press and release on output slot 0 of
node 1. -/
theorem click_release_never_connects_witness :
    (processMouseUp (pointerUpIsClick pointerIdle) 0 envEmpty false false false
        (installOutputSlotPress upState0 1 0 "number")).1.connecting_links
      = none ∧
    (processMouseUp (pointerUpIsClick pointerIdle) 0 envEmpty false false false
        (installOutputSlotPress upState0 1 0 "number")).2 = [] :=
  ⟨(click_release_never_connects upState0 1 0 "number" 0 envEmpty false false
      false pointerIdle rfl).1,
   (click_release_never_connects upState0 1 0 "number" 0 envEmpty false false
      false pointerIdle rfl).2.2⟩

/-- C2: on a primary-button drag release with one pending connection: over a
node with a matching slot under the pointer the connection is committed via
connect; otherwise, dragging from an output with link_over_widget set, the
connectingWidgetLink event is emitted (and the widget flag cleared) instead
of a graph connection; otherwise the type-directed best-slot connect
(connectByType when dragging from an output, connectByTypeOutput when
dragging from an input) is attempted; and over empty canvas the
empty-release event is emitted and no connection is made. -/
theorem drag_release_connection_dispatch (st : UpState) (env : MouseUpEnv)
    (l : CLink) (rlm asb sk : Bool) (hl : st.connecting_links = some [l]) :
    (∀ nodeId slot ty, env.nodeUnder = some nodeId → l.output = some ty →
      env.overInputSlot = some slot →
      (processMouseUp false 0 env rlm asb sk st).2
        = [GraphAction.connect l.nodeId l.slot nodeId slot l.afterRerouteId]) ∧
    (∀ nodeId ty, env.nodeUnder = some nodeId → l.output = some ty →
      env.overInputSlot = none → st.link_over_widget = true →
      (processMouseUp false 0 env rlm asb sk st).2
        = [GraphAction.emitConnectingWidgetLink] ∧
      (processMouseUp false 0 env rlm asb sk st).1.link_over_widget = false) ∧
    (∀ nodeId ty, env.nodeUnder = some nodeId → l.output = some ty →
      env.overInputSlot = none → st.link_over_widget = false →
      (processMouseUp false 0 env rlm asb sk st).2
        = [GraphAction.connectByType l.nodeId l.slot nodeId ty
            l.afterRerouteId]) ∧
    (∀ nodeId slot ty, env.nodeUnder = some nodeId → l.output = none →
      l.input = some ty → env.overOutputSlot = some slot →
      (processMouseUp false 0 env rlm asb sk st).2
        = [GraphAction.connect nodeId slot l.nodeId l.slot l.afterRerouteId]) ∧
    (∀ nodeId ty, env.nodeUnder = some nodeId → l.output = none →
      l.input = some ty → env.overOutputSlot = none →
      (processMouseUp false 0 env rlm asb sk st).2
        = [GraphAction.connectByTypeOutput l.nodeId l.slot nodeId ty
            l.afterRerouteId]) ∧
    (env.nodeUnder = none → (l.input.isSome || l.output.isSome) = true →
      (processMouseUp false 0 env rlm asb sk st).2.head?
        = some GraphAction.emitEmptyRelease ∧
      ((processMouseUp false 0 env rlm asb sk st).2.all
        fun a => !a.isConnect) = true) := by
  refine ⟨?_, ?_, ?_, ?_, ?_, ?_⟩
  · intro nodeId slot ty hn ho hs
    simp [processMouseUp, linkReleaseActions, linkUpStep, hl, hn, ho, hs]
  · intro nodeId ty hn ho hs hw
    constructor <;>
      simp [processMouseUp, linkReleaseActions, linkUpStep, hl, hn, ho, hs, hw]
  · intro nodeId ty hn ho hs hw
    simp [processMouseUp, linkReleaseActions, linkUpStep, hl, hn, ho, hs, hw]
  · intro nodeId slot ty hn ho hi hs
    simp [processMouseUp, linkReleaseActions, linkUpStep, hl, hn, ho, hi, hs]
  · intro nodeId ty hn ho hi hs
    simp [processMouseUp, linkReleaseActions, linkUpStep, hl, hn, ho, hi, hs]
  · intro hn hio
    constructor <;>
      (cases rlm <;> cases sk <;> cases asb <;>
        simp [processMouseUp, linkReleaseActions, hl, hn, hio,
          GraphAction.isConnect])

/-- The pending link of the C2 witness: dragging from output slot 0 of
node 1 carrying type number. -/
def linkEx : CLink := ⟨1, 0, some "number", none, none⟩

/-- A canvas state holding the single pending link linkEx. -/
def stLinkEx : UpState := ⟨some [linkEx], false, false, false, true, false⟩

/-- A release point over node 7 with input slot 3 under the pointer. -/
def envSlotHit : MouseUpEnv := ⟨some 7, some 3, none⟩

/-- Witness for C2: releasing linkEx over node 7's input slot 3 commits the
connection via connect. -/
theorem drag_release_connection_dispatch_witness :
    (processMouseUp false 0 envSlotHit false false false stLinkEx).2
      = [GraphAction.connect 1 0 7 3 none] :=
  (drag_release_connection_dispatch stLinkEx envSlotHit linkEx false false
      false rfl).1 7 3 "number" rfl rfl rfl

/-! ## Primary-button dispatch (processPrimaryButton,
    src/LGraphCanvas.ts lines 2063-2294) -/

/-- Modelled from the spec: isInRectangle from ./measure (not under src/):
point within the rectangle given by left/top/width/height, closed on the low
edges and open on the high edges. -/
def isInRectangle (x y left top width height : Int) : Bool :=
  decide (left ≤ x) && decide (x < left + width) &&
  decide (top ≤ y) && decide (y < top + height)

/-- A rendered link segment as the primary-button loop sees it: whether the
cached centre point _pos is present and its coordinates, whether a path is
cached, and the result of the dpi-corrected ctx.isPointInStroke test at the
press point - the stroke test is a canvas API call (line width set to
connections_width + 7 at line 2164), so its outcome is an oracle input. -/
structure LinkSegmentInfo where
  segId : Nat
  hasPos : Bool
  centreX : Int
  centreY : Int
  hasPath : Bool
  inStroke : Bool
deriving DecidableEq

/-- The gesture the primary-button dispatch installs on the pointer
session.  linkCentreMenu stands for the install at lines 2199-2206:
onClick = showLinkMenu on the segment, drag = canvas pan, finally clears
dragging_canvas. -/
inductive PrimaryAction
  | multiSelectRect
  | readOnlyPan
  | cloneDrag
  | nodeClick
  | rerouteShiftConnect (rid : Nat)
  | rerouteDrag (rid : Nat)
  | linkShiftConnect (segId : Nat)
  | linkAltReroute (segId : Nat)
  | linkCentreMenu (segId : Nat)
  | groupResize (gid : Nat)
  | groupHeaderDrag (gid : Nat)
  | canvasPan
  | noAction
deriving DecidableEq

/-- The group under the press point, when any: whether the point is in its
resize corner or in its title bar. -/
structure GroupHit where
  gid : Nat
  inResize : Bool
  inTitlebar : Bool
deriving DecidableEq

/-- Modelled from the spec: the hit-test queries of the graph model
(getNodeOnPos, getRerouteOnPos, getGroupOnPos - LGraph is not under src/)
at the press point, plus the rendered link segments of renderedPaths in
iteration order. -/
structure PrimaryEnv where
  x : Int
  y : Int
  node : Option Nat
  reroute : Option Nat
  segments : List LinkSegmentInfo
  group : Option GroupHit
deriving DecidableEq

/-- The configuration and modifier state processPrimaryButton reads.
altDragCloneOk bundles LiteGraph.alt_drag_do_clone_nodes with the success
of node.clone(). -/
structure PrimaryConfig where
  ctrlKey : Bool
  metaKey : Bool
  altKey : Bool
  shiftKey : Bool
  read_only : Bool
  altDragCloneOk : Bool
  allow_interaction : Bool
  nodeAllowsInteraction : Bool
  reroutesEnabled : Bool
  allow_dragcanvas : Bool
deriving DecidableEq

/-- The renderedPaths loop (lines 2167-2208): segments without a cached
centre are skipped; with shift or alt held, a point-in-stroke hit starts a
connection from the link's origin (shift) or splices in a new reroute
(alt, when reroutes are enabled); otherwise the link-menu action is
installed only when the point is inside the 8 x 8 box around the cached
centre point. -/
def linkLoop (shiftKey altKey reroutesEnabled : Bool) (x y : Int) :
    List LinkSegmentInfo → Option PrimaryAction
  | [] => none
  | seg :: rest =>
    if !seg.hasPos then linkLoop shiftKey altKey reroutesEnabled x y rest
    else if (shiftKey || altKey) && seg.hasPath && seg.inStroke then
      if shiftKey && !altKey then
        some (PrimaryAction.linkShiftConnect seg.segId)
      else if reroutesEnabled && altKey && !shiftKey then
        some (PrimaryAction.linkAltReroute seg.segId)
      else linkLoop shiftKey altKey reroutesEnabled x y rest
    else if isInRectangle x y (seg.centreX - 4) (seg.centreY - 4) 8 8 then
      some (PrimaryAction.linkCentreMenu seg.segId)
    else linkLoop shiftKey altKey reroutesEnabled x y rest

/-- LGraphCanvas processPrimaryButton (lines 2063-2294) as a decision
function from configuration and hit-test environment to the installed
gesture: multi-select rectangle on ctrl/cmd without alt; read-only pan;
alt-clone drag; node click; then - with no interactable node - reroute
actions, the rendered-paths loop, group resize / header drag, and finally
the canvas-pan fallback when nothing installed a click or drag hook. -/
def processPrimaryButton (cfg : PrimaryConfig) (env : PrimaryEnv) :
    PrimaryAction :=
  if (cfg.ctrlKey || cfg.metaKey) && !cfg.altKey then
    PrimaryAction.multiSelectRect
  else if cfg.read_only then PrimaryAction.readOnlyPan
  else if cfg.altDragCloneOk && cfg.altKey && !cfg.ctrlKey && env.node.isSome &&
      cfg.allow_interaction then
    PrimaryAction.cloneDrag
  else if env.node.isSome &&
      (cfg.allow_interaction || cfg.nodeAllowsInteraction) then
    PrimaryAction.nodeClick
  else
    let rerouteAct : Option PrimaryAction :=
      if cfg.reroutesEnabled then
        match env.reroute with
        | some rid =>
          some (if cfg.shiftKey then PrimaryAction.rerouteShiftConnect rid
                else PrimaryAction.rerouteDrag rid)
        | none => none
      else none
    match rerouteAct with
    | some act => act
    | none =>
      match linkLoop cfg.shiftKey cfg.altKey cfg.reroutesEnabled env.x env.y
          env.segments with
      | some act => act
      | none =>
        match env.group with
        | some gh =>
          if gh.inResize then PrimaryAction.groupResize gh.gid
          else if gh.inTitlebar then PrimaryAction.groupHeaderDrag gh.gid
          else if cfg.allow_dragcanvas then PrimaryAction.canvasPan
          else PrimaryAction.noAction
        | none =>
          if cfg.allow_dragcanvas then PrimaryAction.canvasPan
          else PrimaryAction.noAction

/-- The first rendered segment whose cached centre box contains the point -
what the loop reduces to when neither shift nor alt is held. -/
def firstCentreHit (x y : Int) : List LinkSegmentInfo → Option Nat
  | [] => none
  | seg :: rest =>
    if seg.hasPos && isInRectangle x y (seg.centreX - 4) (seg.centreY - 4) 8 8
    then some seg.segId
    else firstCentreHit x y rest

theorem linkLoop_no_modifiers (re : Bool) (x y : Int)
    (segs : List LinkSegmentInfo) :
    linkLoop false false re x y segs
      = (firstCentreHit x y segs).map PrimaryAction.linkCentreMenu := by
  induction segs with
  | nil => rfl
  | cons seg rest ih =>
    rw [linkLoop, firstCentreHit]
    by_cases hp : seg.hasPos = true
    · rw [if_neg (by simp [hp])]
      rw [if_neg (by simp)]
      by_cases hc :
          isInRectangle x y (seg.centreX - 4) (seg.centreY - 4) 8 8 = true
      · rw [if_pos hc, if_pos (by simp [hp, hc])]
        rfl
      · rw [if_neg hc, if_neg (by simp [hc]), ih]
    · rw [if_pos (by simp [Bool.eq_false_iff.mpr hp]),
        if_neg (by simp [Bool.eq_false_iff.mpr hp]), ih]

/-- C6 (amended): with no modifier keys held and no node, reroute or group
under the press point, the primary-button dispatch installs the link-menu
click action exactly when the point lies inside the 8 x 8 box centred on the
first rendered segment's cached centre point whose box contains it;
otherwise it falls through to canvas pan (when allowed).  The
stroke-width point-in-stroke test is consulted only when shift or alt is
held. -/
theorem primaryButton_link_centre_menu (cfg : PrimaryConfig) (env : PrimaryEnv)
    (hctrl : cfg.ctrlKey = false) (hmeta : cfg.metaKey = false)
    (halt : cfg.altKey = false) (hshift : cfg.shiftKey = false)
    (hro : cfg.read_only = false) (hnode : env.node = none)
    (hrr : env.reroute = none) (hgroup : env.group = none) :
    processPrimaryButton cfg env
      = (match firstCentreHit env.x env.y env.segments with
         | some sid => PrimaryAction.linkCentreMenu sid
         | none =>
           if cfg.allow_dragcanvas then PrimaryAction.canvasPan
           else PrimaryAction.noAction) := by
  simp only [processPrimaryButton, hctrl, hmeta, halt, hshift, hro, hnode,
    hrr, hgroup]
  simp only [Option.isSome_none, Bool.false_and, Bool.and_false,
    Bool.false_or, Bool.or_false, Bool.not_false, Bool.true_and,
    Bool.and_true, Bool.false_eq_true, if_false, ite_self]
  rw [linkLoop_no_modifiers]
  cases firstCentreHit env.x env.y env.segments <;> rfl

/-- The configuration of the C6 scenarios: no modifiers, interaction
enabled, reroutes enabled, canvas panning allowed. -/
def cfgPlain : PrimaryConfig :=
  ⟨false, false, false, false, false, false, true, false, true, true⟩

/-- A long rendered segment: centre cached at (100, 0), path cached, and the
press point (0, 0) lies within the stroke (oracle result true). -/
def segEx : LinkSegmentInfo := ⟨0, true, 100, 0, true, true⟩

/-- A press at (0, 0) over empty canvas apart from segEx. -/
def envSeg : PrimaryEnv := ⟨0, 0, none, none, [segEx], none⟩

/-- C6 counterexample: a no-modifier press within the stroke width of a
rendered link (segEx.inStroke is true) but away from the cached centre point
installs canvas pan, not the link-menu click action - the point-in-stroke
test is only reached when shift or alt is held. -/
theorem primaryButton_stroke_without_modifier_pans :
    segEx.inStroke = true ∧
    processPrimaryButton cfgPlain envSeg = PrimaryAction.canvasPan ∧
    processPrimaryButton cfgPlain envSeg
      ≠ PrimaryAction.linkCentreMenu segEx.segId := by
  refine ⟨rfl, by decide, by decide⟩

/-- Witness for C6: the amended characterization evaluated at the concrete
scenario. -/
theorem primaryButton_link_centre_menu_witness :
    processPrimaryButton cfgPlain envSeg
      = (match firstCentreHit envSeg.x envSeg.y envSeg.segments with
         | some sid => PrimaryAction.linkCentreMenu sid
         | none =>
           if cfgPlain.allow_dragcanvas then PrimaryAction.canvasPan
           else PrimaryAction.noAction) :=
  primaryButton_link_centre_menu cfgPlain envSeg rfl rfl rfl rfl rfl rfl rfl rfl

end LiteGraph
